import Mathlib

/-!
# GitDocGenAI — repository ingestion and file classification pipeline

A shallow embedding, in Lean 4, of the core pipeline of the GitDocGenAI
repository: the file analyzer (`agents/code_analyzer.py`), the repository
scanner and acquirer (`agents/repo_manager.py`) and the project structure
analyzer (`agents/readme_generator.py`).  Paths are lists of segments,
file bytes are lists of naturals below 256, Python strings are Lean
strings, and Python exceptions are modelled with `Option`/`Except`.
-/

namespace GitDocGen

/-! ## Python string primitives

`str.strip`, `str.lower`, `str.splitlines`, substring containment (`in`),
and `pathlib`'s `suffix`, modelled over `List Char` / `String`. -/

/-- Characters Python's `str.strip()` removes: the code points for which
`str.isspace()` holds (ASCII whitespace, the information separators,
NEL, NBSP and the Unicode space separators). -/
def isPySpace (c : Char) : Bool :=
  let n := c.toNat
  (9 ≤ n && n ≤ 13) || (28 ≤ n && n ≤ 32) || n == 0x85 || n == 0xA0 ||
    n == 0x1680 || (0x2000 ≤ n && n ≤ 0x200A) || n == 0x2028 || n == 0x2029 ||
    n == 0x202F || n == 0x205F || n == 0x3000

/-- Python `str.strip()` on a character list. -/
def pyStripL (l : List Char) : List Char :=
  ((l.dropWhile isPySpace).reverse.dropWhile isPySpace).reverse

/-- Python `str.strip()`. -/
def pyStrip (s : String) : String :=
  String.mk (pyStripL s.data)

/-- Python `str.lower()` (ASCII range, which is all the source tables use). -/
def pyLower (s : String) : String :=
  String.mk (s.data.map Char.toLower)

/-- Python substring containment `pat in hay` on character lists. -/
def containsSub (pat : List Char) : List Char → Bool
  | [] => pat.isEmpty
  | c :: t => pat.isPrefixOf (c :: t) || containsSub pat t

/-- Python `pat in hay` on strings. -/
def strContains (hay pat : String) : Bool :=
  containsSub pat.data hay.data

/-- The line boundaries of Python `str.splitlines`. -/
def isLineBreak (c : Char) : Bool :=
  let n := c.toNat
  n == 10 || n == 13 || n == 11 || n == 12 || n == 28 || n == 29 || n == 30 ||
    n == 0x85 || n == 0x2028 || n == 0x2029

/-- Worker for `pySplitlines`: `acc` is the current line, reversed. -/
def splitlinesGo : List Char → List Char → List (List Char)
  | [], acc => [acc.reverse]
  | '\r' :: '\n' :: r2, acc =>
    acc.reverse :: (match r2 with
      | [] => []
      | r => splitlinesGo r [])
  | c :: rest, acc =>
    if isLineBreak c then
      acc.reverse :: (match rest with
        | [] => []
        | r => splitlinesGo r [])
    else
      splitlinesGo rest (c :: acc)

/-- Python `str.splitlines()` (without keepends): `""` gives no lines,
a trailing line break opens no empty final line, and `\x0d\x0a` counts
as one boundary. -/
def pySplitlines (s : String) : List String :=
  match s.data with
  | [] => []
  | l => (splitlinesGo l []).map String.mk

/-- Universal-newline translation done by `open(..., 'r')`: CRLF and lone
CR both become LF. -/
def translateNewlines : List Char → List Char
  | [] => []
  | '\r' :: '\n' :: rest => '\n' :: translateNewlines rest
  | '\r' :: rest => '\n' :: translateNewlines rest
  | c :: rest => c :: translateNewlines rest

/-- Index of the last dot of a name, if any. -/
def lastDotIdx (l : List Char) : Option Nat :=
  ((l.enum.filter (fun p => p.2 == '.')).map (fun p => p.1)).getLast?

/-- `pathlib.PurePath.suffix` of a file name: the part from the last dot on,
empty when the dot is leading, trailing or absent. -/
def pySuffix (name : String) : String :=
  match lastDotIdx name.data with
  | some i =>
    if 0 < i && i < name.data.length - 1 then String.mk (name.data.drop i) else ""
  | none => ""

/-- `'/'.join(parts)`. -/
def joinSlash : List String → String
  | [] => ""
  | [p] => p
  | p :: rest => p ++ "/" ++ joinSlash rest

/-- `str(path)` for a path given by its `parts` (a leading part of a plain
slash marks an absolute path). -/
def pyStrPath (parts : List String) : String :=
  match parts with
  | "/" :: rest => "/" ++ joinSlash rest
  | ps => joinSlash ps

/-- The bytes of an ASCII string, for building concrete file contents. -/
def asciiBytes (s : String) : List Nat :=
  s.data.map Char.toNat

/-! ## Text encodings

The five codecs named in `CodeAnalyzer.encoding_attempts`, each in a
strict form (`none` on a malformed input, what `bytes.decode` without an
error handler does) and a lenient form (malformed byte sequences dropped,
what `errors='ignore'` does).  Code points are naturals. -/

/-- Is `b` a UTF-8 continuation byte? -/
def utf8Cont (b : Nat) : Bool :=
  0x80 ≤ b && b ≤ 0xBF

/-- Lower bound of the first continuation byte after lead `b` (tightened
for E0 and F0 to exclude overlong forms). -/
def utf8FirstLo (b : Nat) : Nat :=
  if b == 0xE0 then 0xA0 else if b == 0xF0 then 0x90 else 0x80

/-- Upper bound of the first continuation byte after lead `b` (tightened
for ED to exclude surrogates and for F4 to stay at most U+10FFFF). -/
def utf8FirstHi (b : Nat) : Nat :=
  if b == 0xED then 0x9F else if b == 0xF4 then 0x8F else 0xBF

/-- Is `c` a valid first continuation byte after lead `b`? -/
def utf8Cont1 (b c : Nat) : Bool :=
  utf8FirstLo b ≤ c && c ≤ utf8FirstHi b

/-- Length of the UTF-8 sequence a lead byte `b` opens (0 when `b` can
lead no sequence). -/
def utf8SeqLen (b : Nat) : Nat :=
  if b ≤ 0x7F then 1
  else if 0xC2 ≤ b && b ≤ 0xDF then 2
  else if 0xE0 ≤ b && b ≤ 0xEF then 3
  else if 0xF0 ≤ b && b ≤ 0xF4 then 4
  else 0

/-- Code point of a two-byte sequence. -/
def utf8Cp2 (b c1 : Nat) : Nat :=
  (b - 0xC0) * 64 + (c1 - 0x80)

/-- Code point of a three-byte sequence. -/
def utf8Cp3 (b c1 c2 : Nat) : Nat :=
  (b - 0xE0) * 4096 + (c1 - 0x80) * 64 + (c2 - 0x80)

/-- Code point of a four-byte sequence. -/
def utf8Cp4 (b c1 c2 c3 : Nat) : Nat :=
  (b - 0xF0) * 262144 + (c1 - 0x80) * 4096 + (c2 - 0x80) * 64 + (c3 - 0x80)

/-- Worker for `utf8DecodeIgnore`, structurally recursive on a fuel that
bounds the number of bytes left (each step consumes at least one byte,
so fuel = initial length never runs out). -/
def utf8DecodeIgnoreF : Nat → List Nat → List Nat
  | 0, _ => []
  | _, [] => []
  | fuel + 1, b :: rest =>
    if b ≤ 0x7F then b :: utf8DecodeIgnoreF fuel rest
    else if utf8SeqLen b == 2 then
      match rest with
      | c1 :: r =>
        if utf8Cont1 b c1 then utf8Cp2 b c1 :: utf8DecodeIgnoreF fuel r
        else utf8DecodeIgnoreF fuel (c1 :: r)
      | [] => []
    else if utf8SeqLen b == 3 then
      match rest with
      | c1 :: c2 :: r =>
        if utf8Cont1 b c1 && utf8Cont c2 then
          utf8Cp3 b c1 c2 :: utf8DecodeIgnoreF fuel r
        else utf8DecodeIgnoreF fuel (c1 :: c2 :: r)
      | r => utf8DecodeIgnoreF fuel r
    else if utf8SeqLen b == 4 then
      match rest with
      | c1 :: c2 :: c3 :: r =>
        if utf8Cont1 b c1 && utf8Cont c2 && utf8Cont c3 then
          utf8Cp4 b c1 c2 c3 :: utf8DecodeIgnoreF fuel r
        else utf8DecodeIgnoreF fuel (c1 :: c2 :: c3 :: r)
      | r => utf8DecodeIgnoreF fuel r
    else
      utf8DecodeIgnoreF fuel rest

/-- UTF-8 decode with `errors='ignore'`: a malformed or truncated sequence
is dropped (byte by byte, which yields the same text as CPython's
maximal-subpart skipping, since no continuation byte can lead). -/
def utf8DecodeIgnore (bs : List Nat) : List Nat :=
  utf8DecodeIgnoreF bs.length bs

/-- Worker for `utf8DecodeStrict`, fuelled like `utf8DecodeIgnoreF`. -/
def utf8DecodeStrictF : Nat → List Nat → Option (List Nat)
  | 0, [] => some []
  | 0, _ :: _ => none
  | _, [] => some []
  | fuel + 1, b :: rest =>
    if b ≤ 0x7F then (utf8DecodeStrictF fuel rest).map (fun t => b :: t)
    else if utf8SeqLen b == 2 then
      match rest with
      | c1 :: r =>
        if utf8Cont1 b c1 then
          (utf8DecodeStrictF fuel r).map (fun t => utf8Cp2 b c1 :: t)
        else none
      | [] => none
    else if utf8SeqLen b == 3 then
      match rest with
      | c1 :: c2 :: r =>
        if utf8Cont1 b c1 && utf8Cont c2 then
          (utf8DecodeStrictF fuel r).map (fun t => utf8Cp3 b c1 c2 :: t)
        else none
      | _ => none
    else if utf8SeqLen b == 4 then
      match rest with
      | c1 :: c2 :: c3 :: r =>
        if utf8Cont1 b c1 && utf8Cont c2 && utf8Cont c3 then
          (utf8DecodeStrictF fuel r).map (fun t => utf8Cp4 b c1 c2 c3 :: t)
        else none
      | _ => none
    else
      none

/-- Strict UTF-8 decode: `none` on any malformed or truncated sequence. -/
def utf8DecodeStrict (bs : List Nat) : Option (List Nat) :=
  utf8DecodeStrictF bs.length bs

/-- Strip a UTF-8 byte-order mark, what the `utf-8-sig` codec does first. -/
def stripBom : List Nat → List Nat
  | 0xEF :: 0xBB :: 0xBF :: r => r
  | l => l

/-- The five bytes the `cp1252` codec leaves undefined. -/
def cp1252Bad (b : Nat) : Bool :=
  b == 0x81 || b == 0x8D || b == 0x8F || b == 0x90 || b == 0x9D

/-- The `cp1252` table: 0x80–0x9F map into Windows-1252 punctuation and
letters, every other byte to itself. -/
def cp1252Point (b : Nat) : Nat :=
  if b < 0x80 || 0x9F < b then b
  else if b == 0x80 then 0x20AC
  else if b == 0x82 then 0x201A
  else if b == 0x83 then 0x0192
  else if b == 0x84 then 0x201E
  else if b == 0x85 then 0x2026
  else if b == 0x86 then 0x2020
  else if b == 0x87 then 0x2021
  else if b == 0x88 then 0x02C6
  else if b == 0x89 then 0x2030
  else if b == 0x8A then 0x0160
  else if b == 0x8B then 0x2039
  else if b == 0x8C then 0x0152
  else if b == 0x8E then 0x017D
  else if b == 0x91 then 0x2018
  else if b == 0x92 then 0x2019
  else if b == 0x93 then 0x201C
  else if b == 0x94 then 0x201D
  else if b == 0x95 then 0x2022
  else if b == 0x96 then 0x2013
  else if b == 0x97 then 0x2014
  else if b == 0x98 then 0x02DC
  else if b == 0x99 then 0x2122
  else if b == 0x9A then 0x0161
  else if b == 0x9B then 0x203A
  else if b == 0x9C then 0x0153
  else if b == 0x9E then 0x017E
  else 0x0178

/-- The encodings of `CodeAnalyzer.encoding_attempts`, in their order. -/
inductive Enc
  | utf8
  | utf8sig
  | latin1
  | cp1252
  | iso8859_1
deriving DecidableEq, Repr

/-- `encoding_attempts = ['utf-8', 'utf-8-sig', 'latin1', 'cp1252', 'iso-8859-1']`. -/
def encodingAttempts : List Enc :=
  [Enc.utf8, Enc.utf8sig, Enc.latin1, Enc.cp1252, Enc.iso8859_1]

/-- Lenient (`errors='ignore'`) decode of one encoding. -/
def decodeIgnore : Enc → List Nat → List Nat
  | Enc.utf8, bs => utf8DecodeIgnore bs
  | Enc.utf8sig, bs => utf8DecodeIgnore (stripBom bs)
  | Enc.latin1, bs => bs
  | Enc.cp1252, bs => (bs.filter (fun b => !cp1252Bad b)).map cp1252Point
  | Enc.iso8859_1, bs => bs

/-- Strict decode of one encoding: `none` models `UnicodeDecodeError`. -/
def decodeStrict : Enc → List Nat → Option (List Nat)
  | Enc.utf8, bs => utf8DecodeStrict bs
  | Enc.utf8sig, bs => utf8DecodeStrict (stripBom bs)
  | Enc.latin1, bs => some bs
  | Enc.cp1252, bs => if bs.any cp1252Bad then none else some (bs.map cp1252Point)
  | Enc.iso8859_1, bs => some bs

/-- Code points to characters (all points our decoders emit are scalar
values, so `Char.ofNat` loses nothing). -/
def codepointsToChars (cps : List Nat) : List Char :=
  cps.map Char.ofNat

/-- Decoding a byte list with `errors='ignore'`, as an `Except` whose
error side models a decode-level exception: the ignore handler consumes
every malformed sequence, so the result is always `.ok`. -/
def decodeLenientE (e : Enc) (bs : List Nat) : Except Unit (List Nat) :=
  Except.ok (decodeIgnore e bs)

/-! ## CodeAnalyzer (`agents/code_analyzer.py`)

A file on disk is a `FileInput`: its path segments, the size `stat`
reports (with a flag for `stat` raising `OSError`), and its raw bytes
(`none` when `open`/`read` raises an OS-level error). -/

/-- The observable state of one file, as `analyze_file` sees it. -/
structure FileInput where
  parts : List String
  size : Nat
  statOk : Bool
  fileData : Option (List Nat)
deriving DecidableEq, Repr

/-- `self.max_file_size = 500 * 1024`. -/
def max_file_size : Nat := 500 * 1024

/-- Outcome of one `open(...).read()` under one encoding. -/
inductive ReadAttempt
  | ok (s : String)
  | decodeErr
  | osErr
deriving DecidableEq, Repr

/-- One iteration of the encoding loop: an OS error is any non-Unicode
exception, a decode error a `UnicodeDecodeError`; on success the text-mode
read returns the lenient decode with universal-newline translation. -/
def attemptRead (e : Enc) (fileData : Option (List Nat)) : ReadAttempt :=
  match fileData with
  | none => ReadAttempt.osErr
  | some bs =>
    match decodeLenientE e bs with
    | Except.error _ => ReadAttempt.decodeErr
    | Except.ok cps => ReadAttempt.ok (String.mk (translateNewlines (codepointsToChars cps)))

/-- The `for encoding in self.encoding_attempts` loop of
`CodeAnalyzer._read_file_content`: a Unicode error tries the next
encoding, any other exception returns `None`, empty or whitespace-only
content returns `None`, and falling off the loop returns `None`. -/
def readEncodingLoop : List Enc → Option (List Nat) → Option String
  | [], _ => none
  | e :: rest, fileData =>
    match attemptRead e fileData with
    | ReadAttempt.osErr => none
    | ReadAttempt.decodeErr => readEncodingLoop rest fileData
    | ReadAttempt.ok s => if pyStrip s = "" then none else some s

/-- `CodeAnalyzer._read_file_content`. -/
def read_file_content (fileData : Option (List Nat)) : Option String :=
  readEncodingLoop encodingAttempts fileData

/-- The `type_mapping` table of `CodeAnalyzer._determine_file_type`,
keyed by the lowercased suffix. -/
def file_type_mapping (suffix : String) : Option String :=
  match suffix with
  | ".html" => some ("web")
  | ".css" => some ("stylesheet")
  | ".scss" => some ("stylesheet")
  | ".sass" => some ("stylesheet")
  | ".less" => some ("stylesheet")
  | ".js" => some ("script")
  | ".jsx" => some ("script")
  | ".ts" => some ("script")
  | ".tsx" => some ("script")
  | ".py" => some ("source")
  | ".java" => some ("source")
  | ".cpp" => some ("source")
  | ".c" => some ("source")
  | ".h" => some ("header")
  | ".hpp" => some ("header")
  | ".cs" => some ("source")
  | ".php" => some ("source")
  | ".rb" => some ("source")
  | ".go" => some ("source")
  | ".rs" => some ("source")
  | ".swift" => some ("source")
  | ".kt" => some ("source")
  | ".scala" => some ("source")
  | ".r" => some ("source")
  | ".m" => some ("source")
  | ".sh" => some ("script")
  | ".bash" => some ("script")
  | ".ps1" => some ("script")
  | ".json" => some ("data")
  | ".xml" => some ("data")
  | ".yaml" => some ("data")
  | ".yml" => some ("data")
  | ".sql" => some ("database")
  | ".md" => some ("documentation")
  | ".rst" => some ("documentation")
  | ".txt" => some ("text")
  | _ => none

/-- `CodeAnalyzer._determine_file_type`, from the file's name. -/
def determine_file_type (name : String) : String :=
  (file_type_mapping (pyLower (pySuffix name))).getD "unknown"

/-- The `language_mapping` table of `CodeAnalyzer._determine_language`. -/
def language_mapping (suffix : String) : Option String :=
  match suffix with
  | ".py" => some ("python")
  | ".js" => some ("javascript")
  | ".jsx" => some ("javascript")
  | ".ts" => some ("typescript")
  | ".tsx" => some ("typescript")
  | ".html" => some ("html")
  | ".css" => some ("css")
  | ".scss" => some ("scss")
  | ".sass" => some ("sass")
  | ".less" => some ("less")
  | ".java" => some ("java")
  | ".cpp" => some ("cpp")
  | ".c" => some ("c")
  | ".h" => some ("c")
  | ".hpp" => some ("cpp")
  | ".cs" => some ("csharp")
  | ".php" => some ("php")
  | ".rb" => some ("ruby")
  | ".go" => some ("go")
  | ".rs" => some ("rust")
  | ".swift" => some ("swift")
  | ".kt" => some ("kotlin")
  | ".scala" => some ("scala")
  | ".sh" => some ("bash")
  | ".bash" => some ("bash")
  | ".ps1" => some ("powershell")
  | ".sql" => some ("sql")
  | ".json" => some ("json")
  | ".xml" => some ("xml")
  | ".yaml" => some ("yaml")
  | ".yml" => some ("yaml")
  | ".md" => some ("markdown")
  | ".rst" => some ("restructuredtext")
  | ".r" => some ("r")
  | ".m" => some ("matlab")
  | _ => none

/-- `CodeAnalyzer._determine_language`: extension first, then the
name-based fallback for `dockerfile` and `makefile`, else `text`. -/
def determine_language (name : String) : String :=
  match language_mapping (pyLower (pySuffix name)) with
  | some lang => lang
  | none =>
    if pyLower name = "dockerfile" then "dockerfile"
    else if pyLower name = "makefile" then "makefile"
    else "text"

/-- The `comment_prefixes` table of `CodeAnalyzer._count_comment_lines`. -/
def comment_prefixes (suffix : String) : List String :=
  match suffix with
  | ".py" => ["#"]
  | ".js" => ["//", "/*"]
  | ".jsx" => ["//", "/*"]
  | ".ts" => ["//", "/*"]
  | ".tsx" => ["//", "/*"]
  | ".java" => ["//", "/*"]
  | ".cpp" => ["//", "/*"]
  | ".c" => ["//", "/*"]
  | ".cs" => ["//", "/*"]
  | ".php" => ["//", "/*", "#"]
  | ".rb" => ["#"]
  | ".go" => ["//"]
  | ".rs" => ["//"]
  | ".sh" => ["#"]
  | ".bash" => ["#"]
  | ".sql" => ["--"]
  | ".html" => ["<!--"]
  | ".css" => ["/*"]
  | _ => []

/-- `CodeAnalyzer._count_comment_lines`. -/
def count_comment_lines (lines : List String) (suffix : String) : Nat :=
  let prefixes := comment_prefixes (pyLower suffix)
  (lines.filter (fun line =>
    prefixes.any (fun p => p.data.isPrefixOf (pyStripL line.data)))).length

/-- The `import_keywords` table of `CodeAnalyzer._extract_imports`. -/
def import_keywords (suffix : String) : List String :=
  match suffix with
  | ".py" => ["import ", "from "]
  | ".js" => ["import ", "require("]
  | ".jsx" => ["import ", "require("]
  | ".ts" => ["import ", "require("]
  | ".tsx" => ["import ", "require("]
  | ".java" => ["import "]
  | ".cpp" => ["#include"]
  | ".c" => ["#include"]
  | ".cs" => ["using "]
  | ".go" => ["import "]
  | ".rs" => ["use "]
  | _ => []

/-- `CodeAnalyzer._extract_imports`: stripped lines starting with one
of the include keywords of the table, the first 10 kept. -/
def extract_imports (lines : List String) (suffix : String) : List String :=
  let keywords := import_keywords (pyLower suffix)
  ((lines.filter (fun line =>
      keywords.any (fun k => k.data.isPrefixOf (pyStripL line.data)))).map
    (fun line => pyStrip line)).take 10

/-- The `definition_keywords` table of `CodeAnalyzer._extract_definitions`. -/
def definition_keywords (suffix : String) : List String :=
  match suffix with
  | ".py" => ["def ", "class ", "async def "]
  | ".js" => ["function ", "class ", "const ", "let ", "var "]
  | ".jsx" => ["function ", "class ", "const ", "let ", "var "]
  | ".ts" => ["function ", "class ", "interface ", "type "]
  | ".tsx" => ["function ", "class ", "interface ", "type "]
  | ".java" => ["public class", "private class", "public interface", "public void", "private void"]
  | ".cpp" => ["class ", "struct ", "void ", "int ", "double "]
  | ".c" => ["void ", "int ", "double ", "struct "]
  | ".cs" => ["public class", "private class", "public void", "private void"]
  | ".php" => ["function ", "class "]
  | ".rb" => ["def ", "class "]
  | ".go" => ["func ", "type "]
  | ".rs" => ["fn ", "struct ", "impl "]
  | _ => []

/-- `stripped.split(...)[0].split(...)[0]`: the part of the line before
the first brace, then before the first parenthesis. -/
def truncAtBraceParen (l : List Char) : List Char :=
  (l.takeWhile (fun c => c.toNat != 123)).takeWhile (fun c => c.toNat != 40)

/-- The per-line body of the `_extract_definitions` loop: the stripped
line, truncated, kept only when a definition keyword occurs in the line
and the truncation is under 100 characters. -/
def definitionOfLine (keywords : List String) (line : String) : Option String :=
  let stripped := pyStripL line.data
  if keywords.any (fun kw => containsSub kw.data stripped) then
    let clean := truncAtBraceParen stripped
    if clean.length < 100 then some (String.mk clean) else none
  else none

/-- `CodeAnalyzer._extract_definitions`: the loop appends each kept line
to `definitions`, and the return slices the first 20. -/
def extract_definitions (lines : List String) (suffix : String) : List String :=
  let keywords := definition_keywords (pyLower suffix)
  (lines.foldl (fun acc line => acc ++ (definitionOfLine keywords line).toList) []).take 20

/-- The `metadata` dictionary of `CodeAnalyzer._extract_metadata`. -/
structure Metadata where
  first_lines : List String
  blank_lines : Nat
  comment_lines : Nat
  imports : List String
  definitions : List String
deriving DecidableEq, Repr

/-- `CodeAnalyzer._extract_metadata`: empty when the content has no
lines, else the five derived signals. -/
def extract_metadata (name : String) (content : String) : Metadata :=
  let lines := pySplitlines content
  if lines.isEmpty then
    { first_lines := [], blank_lines := 0, comment_lines := 0,
      imports := [], definitions := [] }
  else
    { first_lines := lines.take 5,
      blank_lines := (lines.filter (fun line => pyStrip line = "")).length,
      comment_lines := count_comment_lines lines (pySuffix name),
      imports := extract_imports (lines.take 50) (pySuffix name),
      definitions := extract_definitions lines (pySuffix name) }

/-- The dictionary `CodeAnalyzer.analyze_file` returns. -/
structure FileRecord where
  file_path : String
  relative_path : String
  content : String
  file_type : String
  language : String
  size : Nat
  line_count : Nat
  metadata : Metadata
deriving DecidableEq, Repr

/-- The `relative_path` computation of `analyze_file`: the last two path
components joined when the path has more than two, else the last one. -/
def relativePathOf (parts : List String) : String :=
  if 2 < parts.length then joinSlash (parts.drop (parts.length - 2))
  else (parts.getLast?).getD ""

/-- The record `analyze_file` assembles once content is in hand. -/
def mkFileRecord (inp : FileInput) (content : String) : FileRecord :=
  let name := (inp.parts.getLast?).getD ""
  { file_path := pyStrPath inp.parts,
    relative_path := relativePathOf inp.parts,
    content := content,
    file_type := determine_file_type name,
    language := determine_language name,
    size := inp.size,
    line_count := (pySplitlines content).length,
    metadata := extract_metadata name content }

/-- The `try` block of `CodeAnalyzer.analyze_file`: a failing `stat` is
the one raising step (the decoder catches its own exceptions); a file
over the size limit or without content is skipped with `None`. -/
def analyzeFileBody (inp : FileInput) : Except String (Option FileRecord) :=
  if inp.statOk = false then Except.error ("stat raised OSError")
  else if max_file_size < inp.size then Except.ok none
  else
    match read_file_content inp.fileData with
    | none => Except.ok none
    | some content => Except.ok (some (mkFileRecord inp content))

/-- `CodeAnalyzer.analyze_file`: the `except` clause turns any escaping
exception into `None`. -/
def analyze_file (inp : FileInput) : Option FileRecord :=
  match analyzeFileBody inp with
  | Except.ok v => v
  | Except.error _ => none

/-! ## RepoManager (`agents/repo_manager.py`) -/

/-- `RepoManager.supported_extensions`. -/
def supported_extensions : List String :=
  [".py", ".js", ".jsx", ".ts", ".tsx", ".html", ".css", ".scss",
   ".sass", ".less", ".java", ".cpp", ".c", ".h", ".hpp", ".cs",
   ".php", ".rb", ".go", ".rs", ".swift", ".kt", ".scala", ".sh",
   ".bash", ".ps1", ".sql", ".xml", ".json", ".yaml", ".yml",
   ".md", ".rst", ".txt", ".dockerfile", ".makefile", ".r", ".m"]

/-- The `skip_dirs` denylist of `RepoManager.scan_files`. -/
def skip_dirs : List String :=
  [".git", ".svn", ".hg", "__pycache__", ".pytest_cache",
   "node_modules", ".next", ".nuxt", "build", "dist",
   ".vscode", ".idea", ".DS_Store", "venv", ".env",
   ".venv", "env", "virtualenv", ".tox"]

/-- The extensionless conventional names `scan_files` keeps. -/
def extensionlessNames : List String :=
  ["dockerfile", "makefile", "readme", "license", "changelog",
   "contributing", "authors", "install", "news"]

/-- One entry `rglob` yields: its full path segments (the repository root
included, as `Path.parts` holds them), whether it is a directory, and
the `stat` size with a flag for `stat` raising `OSError`. -/
structure ScanEntry where
  parts : List String
  isDir : Bool
  size : Nat
  statOk : Bool
deriving DecidableEq, Repr

/-- The per-entry body of the `scan_files` loop, in the code's order of
checks: directories, denylisted segments, failing or oversized `stat`,
then the extension and extensionless-name inclusion rules. -/
def keepEntry (e : ScanEntry) : Option (List String) :=
  if e.isDir then none
  else if e.parts.any (fun seg => skip_dirs.contains seg) then none
  else if e.statOk = false then none
  else if 5 * 1024 * 1024 < e.size then none
  else
    let name := (e.parts.getLast?).getD ""
    if supported_extensions.contains (pyLower (pySuffix name)) then some e.parts
    else if pySuffix name = "" && extensionlessNames.contains (pyLower name) then
      some e.parts
    else none

/-- `RepoManager.scan_files`: the loop appends each kept file path, and
the return sorts the list (Python sorts `Path`s by their parts, strings
compared by code points). -/
def scan_files (entries : List ScanEntry) : List (List String) :=
  List.insertionSort (fun a b => a ≤ b)
    (entries.foldl (fun acc e => acc ++ (keepEntry e).toList) [])

/-- `url.rstrip('/')`. -/
def rstripSlash (s : String) : String :=
  String.mk ((s.data.reverse.dropWhile (fun c => c.toNat == 47)).reverse)

/-- `str.replace('.git', '')`: every non-overlapping occurrence removed,
left to right. -/
def removeDotGit : List Char → List Char
  | '.' :: 'g' :: 'i' :: 't' :: rest => removeDotGit rest
  | c :: rest => c :: removeDotGit rest
  | [] => []

/-- The `clean_url` of `RepoManager._get_zip_url`. -/
def cleanRepoUrl (url : String) : String :=
  String.mk (removeDotGit (rstripSlash url).data)

/-- The candidate default branches `_get_zip_url` probes, in order. -/
def branchCandidates : List String :=
  ["main", "master", "dev", "develop"]

/-- A candidate archive URL. -/
def archiveUrl (clean br : String) : String :=
  clean ++ "/archive/refs/heads/" ++ br ++ ".zip"

/-- `RepoManager._get_zip_url`, with the network abstracted as `probe`
(true when the HEAD request returns 200; an exception or any other
status continues the loop): the first candidate whose probe succeeds
wins, the default is `main`, and a URL without `github.com` raises
(`none`). -/
def get_zip_url (probe : String → Bool) (url : String) : Option String :=
  let clean := cleanRepoUrl url
  if strContains clean "github.com" then
    some (archiveUrl clean
      ((branchCandidates.find? (fun br => probe (archiveUrl clean br))).getD "main"))
  else none

/-- The scratch-directory state `_download_zip` manipulates: whether the
downloaded archive file and the canonical repository directory exist. -/
structure ScratchState where
  zipExists : Bool
  repoDirExists : Bool
deriving DecidableEq, Repr

/-- Outcome of `_download_zip`: normal return or an escaping exception,
each with the scratch-directory state left behind. -/
inductive DownloadOutcome
  | ok (fs : ScratchState)
  | raised (step : String) (fs : ScratchState)
deriving DecidableEq, Repr

/-- Which steps of `_download_zip` succeed: the HTTP download
(`requests.get` + `raise_for_status`), the `zipfile` extraction, and the
`shutil.move` renaming of the extracted directory. -/
structure DownloadEnv where
  downloadOk : Bool
  extractOk : Bool
  moveOk : Bool
deriving DecidableEq, Repr

/-- `RepoManager._download_zip` as straight-line code with exception
propagation: the archive is written after a successful download, and
`zip_path.unlink()` runs only after extraction and renaming returned. -/
def download_zip (env : DownloadEnv) : DownloadOutcome :=
  let fs0 : ScratchState := { zipExists := false, repoDirExists := false }
  if env.downloadOk = false then DownloadOutcome.raised ("requests.get") fs0
  else
    let fs1 : ScratchState := { fs0 with zipExists := true }
    if env.extractOk = false then DownloadOutcome.raised ("zipfile.extractall") fs1
    else if env.moveOk = false then DownloadOutcome.raised ("shutil.move") fs1
    else
      let fs2 : ScratchState := { fs1 with repoDirExists := true }
      let fs3 : ScratchState := { fs2 with zipExists := false }
      DownloadOutcome.ok fs3

/-! ## Project Structure Analyzer (`agents/readme_generator.py`) -/

/-- The mutable state of the `for file_data in analyzed_files` loop of
`ReadmeGenerator._analyze_project_structure`: the language tally (an
insertion-ordered association list, as a Python dict iterates) and the
four platform flags. -/
structure ProjState where
  file_types : List (String × Nat)
  has_frontend : Bool
  has_backend : Bool
  has_database : Bool
  has_mobile : Bool
deriving DecidableEq, Repr

/-- `file_types[language] += 1` with insertion on first sight. -/
def bumpCount (l : List (String × Nat)) (k : String) : List (String × Nat) :=
  match l with
  | [] => [(k, 1)]
  | (k0, c) :: rest =>
    if k0 = k then (k0, c + 1) :: rest else (k0, c) :: bumpCount rest k

/-- The languages whose presence sets `has_frontend`. -/
def frontendLangs : List String :=
  ["html", "css", "javascript", "typescript", "jsx", "tsx"]

/-- The languages whose presence sets `has_backend`. -/
def backendLangs : List String :=
  ["python", "java", "php", "ruby", "go", "rust", "csharp"]

/-- One iteration of the loop body over one analyzed file. -/
def projStep (st : ProjState) (r : FileRecord) : ProjState :=
  let lower := pyLower r.content
  { file_types := bumpCount st.file_types r.language,
    has_frontend := st.has_frontend || frontendLangs.contains r.language,
    has_backend := st.has_backend || backendLangs.contains r.language,
    has_database := st.has_database || strContains lower "firebase" ||
      strContains lower "mongodb" || strContains lower "sql",
    has_mobile := st.has_mobile || strContains lower "react native" ||
      strContains lower "flutter" || r.language == "swift" }

/-- Python `max(keys, key=counts.get)`: the first key (in iteration
order) with a strictly maximal count wins. -/
def argmaxFirst (l : List (String × Nat)) : Option String :=
  (l.foldl (fun best p =>
    match best with
    | none => some p
    | some q => if q.2 < p.2 then some p else some q) none).map (fun p => p.1)

/-- `ReadmeGenerator._determine_project_type`, the archetype decision
chain in the code's order. -/
def determine_project_type (has_frontend has_backend has_mobile : Bool)
    (main_language : String) : String :=
  if has_mobile then "Mobile Application"
  else if has_frontend && has_backend then "Full-Stack Web Application"
  else if has_frontend then "Frontend Web Application"
  else if has_backend then "Backend API/Service"
  else if main_language = "python" then "Python Application"
  else if main_language = "javascript" then "JavaScript Application"
  else "Software Project"

/-- The profile `_analyze_project_structure` returns. -/
structure ProjProfile where
  file_types : List (String × Nat)
  main_language : String
  project_type : String
  has_frontend : Bool
  has_backend : Bool
  has_database : Bool
  has_mobile : Bool
  total_files : Nat
deriving DecidableEq, Repr

/-- `ReadmeGenerator._analyze_project_structure`. -/
def analyze_project_structure (records : List FileRecord) : ProjProfile :=
  let st := records.foldl projStep
    { file_types := [], has_frontend := false, has_backend := false,
      has_database := false, has_mobile := false }
  let main := (argmaxFirst st.file_types).getD "unknown"
  { file_types := st.file_types,
    main_language := main,
    project_type := determine_project_type st.has_frontend st.has_backend
      st.has_mobile main,
    has_frontend := st.has_frontend,
    has_backend := st.has_backend,
    has_database := st.has_database,
    has_mobile := st.has_mobile,
    total_files := records.length }

/-! ## Definitions written from the spec's words

These are the spec side of the refinement claims: they restate, in the
spec's own words, what the corresponding source function is claimed to
compute, and the theorems below compare them with the embeddings of the
source. -/

/-- The spec's archetype decision table, §4.7: "evaluated in this exact
priority order (first match wins): mobile; frontend∧backend; frontend
only; backend only; main_language=python; main_language=javascript;
else Generic". -/
def archetypeSpec (mobile frontend backend : Bool) (main_language : String) : String :=
  if mobile then "Mobile Application"
  else if frontend && backend then "Full-Stack Web Application"
  else if frontend then "Frontend Web Application"
  else if backend then "Backend API/Service"
  else if main_language = "python" then "Python Application"
  else if main_language = "javascript" then "JavaScript Application"
  else "Software Project"

/-- The spec's `definitions` extraction, §4.5, with the off-by-one the
counterexample below forces amended: a qualifying line (one containing a
definition keyword) is truncated at the first brace or parenthesis and
kept only when the truncated form is under 100 characters; the first 20
kept lines make the list. -/
def extract_definitions_spec (lines : List String) (suffix : String) : List String :=
  let keywords := definition_keywords (pyLower suffix)
  (lines.filterMap (fun line =>
    let stripped := pyStripL line.data
    if keywords.any (fun kw => containsSub kw.data stripped) then
      let clean := stripped.takeWhile (fun c => c.toNat != 123 && c.toNat != 40)
      if 100 ≤ clean.length then none else some (String.mk clean)
    else none)).take 20

/-- The spec's `relative_path`, §3: the file's path relative to the
repository root, for a file whose full path extends the root's. -/
def specRelativePath (root parts : List String) : Option String :=
  if root.isPrefixOf parts then some (joinSlash (parts.drop root.length))
  else none

/-! ## Concrete inputs used by witnesses and counterexamples -/

/-- The raw bytes 41 FF 42: `A`, an invalid UTF-8 byte, `B`. -/
def corruptBytes : List Nat := [65, 255, 66]

/-- A small readable file whose bytes are `corruptBytes`. -/
def corruptInput : FileInput :=
  { parts := ["repo", "bad.py"], size := 3, statOk := true,
    fileData := some corruptBytes }

/-- A readable non-whitespace file of exactly 500*1024 bytes. -/
def boundaryAcceptInput : FileInput :=
  { parts := ["repo", "ok.py"], size := 500 * 1024, statOk := true,
    fileData := some (asciiBytes "print(1)") }

/-- A readable file of exactly 500*1024+1 bytes. -/
def boundaryRejectInput : FileInput :=
  { parts := ["repo", "big.py"], size := 500 * 1024 + 1, statOk := true,
    fileData := some (asciiBytes "print(1)") }

/-- A file nested three directories below the repository root `repo`. -/
def deepInput : FileInput :=
  { parts := ["repo", "a", "b", "c", "f.py"], size := 6, statOk := true,
    fileData := some (asciiBytes "x = 1\n") }

/-- A qualifying definition line whose truncated form is exactly 100
characters long. -/
def line100 : String :=
  String.mk ('d' :: 'e' :: 'f' :: ' ' :: List.replicate 96 'a')

/-- The scenario inputs of spec §8: an html file, a css file, and a
python file whose content mentions `sql`. -/
def scenarioInputs : List FileInput :=
  [{ parts := ["repo", "index.html"], size := 13, statOk := true,
     fileData := some (asciiBytes "<h1>Site</h1>") },
   { parts := ["repo", "style.css"], size := 16, statOk := true,
     fileData := some (asciiBytes "body color: red;") },
   { parts := ["repo", "app.py"], size := 14, statOk := true,
     fileData := some (asciiBytes "import sqlite3") }]

/-- The records the File Analyzer produces from `scenarioInputs`. -/
def scenarioRecords : List FileRecord :=
  scenarioInputs.filterMap analyze_file

/-! ## Helper lemmas -/

/-- Appending each produced element in a left fold is `filterMap`. -/
theorem foldl_append_toList {α β : Type} (g : α → Option β) (l : List α) :
    ∀ acc : List β,
      l.foldl (fun a x => a ++ (g x).toList) acc = acc ++ l.filterMap g := by
  induction l with
  | nil => intro acc; simp
  | cons x t ih =>
    intro acc
    cases hg : g x with
    | none => simp [List.foldl_cons, hg, List.filterMap_cons, ih]
    | some y => simp [List.foldl_cons, hg, List.filterMap_cons, ih]

/-- Inversion: a produced `FileRecord` means `stat` succeeded, the size
was within the ceiling, and the content came from `read_file_content`. -/
theorem analyze_file_some {inp : FileInput} {r : FileRecord}
    (h : analyze_file inp = some r) :
    inp.statOk = true ∧ inp.size ≤ max_file_size ∧
    ∃ c, read_file_content inp.fileData = some c ∧ r = mkFileRecord inp c := by
  by_cases h1 : inp.statOk = false
  · simp [analyze_file, analyzeFileBody, h1] at h
  · by_cases h2 : max_file_size < inp.size
    · simp [analyze_file, analyzeFileBody, h1, h2] at h
    · cases hr : read_file_content inp.fileData with
      | none => simp [analyze_file, analyzeFileBody, h1, h2, hr] at h
      | some c =>
        have hst : inp.statOk = true := by
          revert h1; cases inp.statOk <;> simp
        have hrec : mkFileRecord inp c = r := by
          simpa [analyze_file, analyzeFileBody, h1, h2, hr] using h
        exact ⟨hst, Nat.le_of_not_lt h2, c, rfl, hrec.symm⟩

/-- The truncation `split(...)[0].split(...)[0]` is one `takeWhile` past
both stop characters. -/
theorem truncAtBraceParen_eq (l : List Char) :
    truncAtBraceParen l = l.takeWhile (fun c => c.toNat != 123 && c.toNat != 40) := by
  induction l with
  | nil => rfl
  | cons c t ih =>
    simp only [truncAtBraceParen] at ih ⊢
    cases h1 : (c.toNat != 123) <;> cases h2 : (c.toNat != 40) <;>
      simp [List.takeWhile_cons, h1, h2, ih]

/-- The per-line body of `_extract_definitions`, rephrased with the
spec's single truncation and its discard-at-100 boundary. -/
theorem definitionOfLine_eq_spec (kws : List String) (line : String) :
    definitionOfLine kws line =
      (let stripped := pyStripL line.data
       if kws.any (fun kw => containsSub kw.data stripped) then
         let clean := stripped.takeWhile (fun c => c.toNat != 123 && c.toNat != 40)
         if 100 ≤ clean.length then none else some (String.mk clean)
       else none) := by
  simp only [definitionOfLine, truncAtBraceParen_eq]
  by_cases hq : kws.any (fun kw => containsSub kw.data (pyStripL line.data)) = true
  · rw [if_pos hq, if_pos hq]
    by_cases hlen : (List.takeWhile (fun c => c.toNat != 123 && c.toNat != 40)
        (pyStripL line.data)).length < 100
    · rw [if_pos hlen, if_neg (by omega)]
    · rw [if_neg hlen, if_pos (by omega)]
  · rw [if_neg hq, if_neg hq]

/-! ## The claims -/

/-- C5: for every input — malformed, binary, empty, or with failing
`stat`/`read` — `analyze_file` returns a `FileRecord` or `None`; the
`except` clause maps every escaping exception of the body to `None`, so
one bad file never aborts the batch. -/
theorem analyze_file_total_or_skip (inp : FileInput) :
    (∀ e, analyzeFileBody inp = Except.error e → analyze_file inp = none) ∧
    (∀ v, analyzeFileBody inp = Except.ok v → analyze_file inp = v) ∧
    (analyze_file inp = none ∨ ∃ r, analyze_file inp = some r) := by
  refine ⟨?_, ?_, ?_⟩
  · intro e he
    simp [analyze_file, he]
  · intro v hv
    simp [analyze_file, hv]
  · cases h : analyze_file inp with
    | none => exact Or.inl rfl
    | some r => exact Or.inr ⟨r, rfl⟩

/-- C6: a decodable, non-whitespace file whose `stat` size is exactly
500*1024 bytes is accepted by `analyze_file`; a file of exactly
500*1024+1 bytes is rejected. -/
theorem analyze_file_size_boundary (inpA inpB : FileInput)
    (hA1 : inpA.statOk = true) (hA2 : inpA.size = 500 * 1024)
    (hA3 : ∃ s, read_file_content inpA.fileData = some s)
    (hB : inpB.size = 500 * 1024 + 1) :
    (analyze_file inpA).isSome = true ∧ analyze_file inpB = none := by
  constructor
  · obtain ⟨s, hs⟩ := hA3
    simp [analyze_file, analyzeFileBody, hA1, hA2, max_file_size, hs]
  · cases hst : inpB.statOk with
    | false => simp [analyze_file, analyzeFileBody, hst]
    | true => simp [analyze_file, analyzeFileBody, hst, hB, max_file_size]

/-- Witness for C6 at the two concrete boundary files. -/
theorem analyze_file_size_boundary_witness :
    (analyze_file boundaryAcceptInput).isSome = true ∧
    analyze_file boundaryRejectInput = none :=
  analyze_file_size_boundary boundaryAcceptInput boundaryRejectInput rfl rfl
    ⟨"print(1)", by decide⟩ rfl

/-- C8: evaluating `_download_zip` at a run whose extraction step raises
shows the downloaded archive file is left in the scratch directory — the
`zip_path.unlink()` cleanup runs only on the all-success path. -/
theorem download_zip_archive_left_on_extract_failure :
    download_zip { downloadOk := true, extractOk := false, moveOk := true }
      = DownloadOutcome.raised ("zipfile.extractall")
          { zipExists := true, repoDirExists := false } ∧
    (∀ env fs, download_zip env = DownloadOutcome.ok fs → fs.zipExists = false) := by
  constructor
  · rfl
  · intro env fs h
    rcases env with ⟨d, e, m⟩
    cases d <;> cases e <;> cases m <;>
      (simp_all [download_zip]; try simp [← h])

/-- C9: the lenient (`errors='ignore'`) decode never raises, so the
encoding loop of `_read_file_content` is decided entirely by its first
encoding, `utf-8`: the fallback encodings are never consulted, and the
result is `None` exactly on an OS-level error or whitespace-only
content — never by exhausting the encoding list. -/
theorem read_file_content_first_encoding_decides (fileData : Option (List Nat)) :
    (∀ e bs, ∃ cps, decodeLenientE e bs = Except.ok cps) ∧
    read_file_content fileData = readEncodingLoop [Enc.utf8] fileData ∧
    (read_file_content fileData = none ↔
      fileData = none ∨ ∃ bs, fileData = some bs ∧
        pyStrip (String.mk (translateNewlines
          (codepointsToChars (utf8DecodeIgnore bs)))) = "") := by
  refine ⟨fun e bs => ⟨decodeIgnore e bs, rfl⟩, ?_, ?_⟩
  · cases fileData with
    | none => rfl
    | some bs => rfl
  · cases fileData with
    | none =>
      simp [read_file_content, readEncodingLoop, encodingAttempts, attemptRead]
    | some bs =>
      have hred : read_file_content (some bs) =
          (if pyStrip (String.mk (translateNewlines
              (codepointsToChars (utf8DecodeIgnore bs)))) = "" then none
           else some (String.mk (translateNewlines
              (codepointsToChars (utf8DecodeIgnore bs))))) := rfl
      rw [hred]
      by_cases hstrip : pyStrip (String.mk (translateNewlines
          (codepointsToChars (utf8DecodeIgnore bs)))) = ""
      · simp [hstrip]
      · simp [hstrip]

/-- C10: `_get_zip_url`'s normalization `replace('.git', '')` removes
every occurrence of `.git`, not only a trailing suffix: for the
repository `my.github-tools` the produced archive URL names the
repository path `myhub-tools` instead. -/
theorem get_zip_url_removes_inner_dotgit :
    cleanRepoUrl "https://github.com/owner/my.github-tools"
      = "https://github.com/owner/myhub-tools" ∧
    ("myhub-tools" : String) ≠ "my.github-tools" ∧
    (∀ (probe : String → Bool) (u : String),
      get_zip_url probe "https://github.com/owner/my.github-tools" = some u →
        strContains u "my.github-tools" = false ∧
        strContains u "myhub-tools" = true) := by
  refine ⟨by decide, by decide, ?_⟩
  intro probe u h
  have hclean : cleanRepoUrl "https://github.com/owner/my.github-tools"
      = "https://github.com/owner/myhub-tools" := by decide
  have hgh : strContains "https://github.com/owner/myhub-tools" "github.com"
      = true := by decide
  simp only [get_zip_url, hclean, hgh, eq_self_iff_true, if_true] at h
  have hu := Option.some.inj h
  have hmem : ((branchCandidates.find?
      (fun br => probe (archiveUrl "https://github.com/owner/myhub-tools" br))).getD
        "main") ∈ branchCandidates := by
    cases hf : List.find?
        (fun br => probe (archiveUrl "https://github.com/owner/myhub-tools" br))
        branchCandidates with
    | none => simp [branchCandidates]
    | some br =>
      simpa [hf] using List.mem_of_find?_eq_some hf
  rw [← hu]
  rw [branchCandidates] at hmem ⊢
  simp only [List.mem_cons, List.not_mem_nil, or_false] at hmem
  rcases hmem with h1 | h1 | h1 | h1 <;> rw [h1] <;> exact ⟨by decide, by decide⟩

/-- C1: the claim that `content` is never partially corrupted fails on
the code: `open(..., errors='ignore')` silently drops undecodable bytes.
The bytes 41 FF 42 yield an accepted record with content `AB`, yet no
supported encoding's complete (strict) decode of those bytes equals
`AB` — utf-8 and utf-8-sig reject them, and the three single-byte
codecs decode the FF byte instead of dropping it. -/
theorem analyze_file_corrupt_content_cex :
    ((analyze_file corruptInput).map FileRecord.content) = some ("AB") ∧
    (∀ e, e ∈ encodingAttempts →
      (decodeStrict e corruptBytes).map
        (fun cps => String.mk (codepointsToChars cps)) ≠ some ("AB")) := by
  decide

/-- C1 (amended): for every readable file that yields a record, `content`
is the lenient utf-8 decode of the raw bytes — undecodable sequences
dropped by the ignore handler — after universal-newline translation. -/
theorem analyze_file_content_is_lenient_utf8 (inp : FileInput) (bs : List Nat)
    (hdata : inp.fileData = some bs) (hsome : (analyze_file inp).isSome = true) :
    (analyze_file inp).map FileRecord.content
      = some (String.mk (translateNewlines (codepointsToChars (utf8DecodeIgnore bs)))) := by
  obtain ⟨r, hr⟩ := Option.isSome_iff_exists.mp hsome
  obtain ⟨hst, hsz, c, hc, hrec⟩ := analyze_file_some hr
  rw [hdata] at hc
  have hred : read_file_content (some bs) =
      (if pyStrip (String.mk (translateNewlines
          (codepointsToChars (utf8DecodeIgnore bs)))) = "" then none
       else some (String.mk (translateNewlines
          (codepointsToChars (utf8DecodeIgnore bs))))) := rfl
  rw [hred] at hc
  by_cases hstrip : pyStrip (String.mk (translateNewlines
      (codepointsToChars (utf8DecodeIgnore bs)))) = ""
  · rw [if_pos hstrip] at hc
    cases hc
  · rw [if_neg hstrip] at hc
    have hcs := Option.some.inj hc
    rw [hr, hrec, ← hcs]
    rfl

/-- Witness for C1 (amended) at the concrete corrupt file. -/
theorem analyze_file_content_is_lenient_utf8_witness :
    (analyze_file corruptInput).map FileRecord.content
      = some (String.mk (translateNewlines
          (codepointsToChars (utf8DecodeIgnore [65, 255, 66])))) :=
  analyze_file_content_is_lenient_utf8 corruptInput [65, 255, 66] rfl (by decide)

/-- C4: the claim that `relative_path` is the path relative to the
repository root fails on the code for nesting of depth three or more:
for `repo/a/b/c/f.py` under root `repo` the code stores `c/f.py`, not
`a/b/c/f.py`. -/
theorem relative_path_not_from_root_cex :
    ((analyze_file deepInput).map FileRecord.relative_path) = some ("c/f.py") ∧
    specRelativePath ["repo"] deepInput.parts = some ("a/b/c/f.py") ∧
    ("c/f.py" : String) ≠ "a/b/c/f.py" := by
  decide

/-- C4 (amended): `relative_path` keeps only the last two path
components — the filename preceded by its immediate parent directory
when the path has more than two components — so intermediate segments
above the parent never appear. -/
theorem relative_path_last_two_components :
    (∀ inp r, analyze_file inp = some r →
      r.relative_path = relativePathOf inp.parts) ∧
    (∀ (ps : List String) (a b : String), ps ≠ [] →
      relativePathOf (ps ++ [a, b]) = a ++ "/" ++ b) := by
  constructor
  · intro inp r h
    obtain ⟨-, -, c, -, hrec⟩ := analyze_file_some h
    rw [hrec]
    rfl
  · intro ps a b hps
    have hlen0 : 0 < ps.length := List.length_pos.mpr hps
    have hlen : 2 < (ps ++ [a, b]).length := by
      rw [List.length_append]
      simp only [List.length_cons, List.length_nil]
      omega
    rw [relativePathOf, if_pos hlen]
    have harith : (ps ++ [a, b]).length - 2 = ps.length := by
      rw [List.length_append]
      simp only [List.length_cons, List.length_nil]
      omega
    rw [harith, List.drop_left]
    rfl

/-- C7: the claim that a truncated form of exactly 100 characters is
kept fails on the code: the loop keeps a line only when
`len(clean_line) < 100`, so a qualifying line whose truncation is
exactly 100 characters long is discarded. -/
theorem extract_definitions_boundary_cex :
    extract_definitions [line100] ".py" = [] ∧
    (definition_keywords (pyLower ".py")).any
      (fun kw => containsSub kw.data (pyStripL line100.data)) = true ∧
    (truncAtBraceParen (pyStripL line100.data)).length = 100 := by
  decide

/-- C7 (amended): `definitions` holds, for each qualifying line, the
line truncated at the first brace or parenthesis; a qualifying line is
discarded exactly when its truncated form has 100 or more characters
(kept only under 100), and the list is the first 20 matches in order. -/
theorem extract_definitions_matches_spec (lines : List String) (suffix : String) :
    extract_definitions lines suffix = extract_definitions_spec lines suffix := by
  simp only [extract_definitions, extract_definitions_spec]
  rw [foldl_append_toList, List.nil_append]
  exact congrArg (fun l0 => List.take 20 l0)
    (congrArg (fun f => List.filterMap f lines)
      (funext (fun line =>
        definitionOfLine_eq_spec (definition_keywords (pyLower suffix)) line)))

/-- C3: the archetype decision chain of `_determine_project_type` agrees
with the spec's priority table (mobile, then full-stack, then frontend,
then backend, then python, then javascript, then generic) on every
input, and on the scenario records — an html file, a css file, and a
python file mentioning `sql` — the profile detects frontend, backend and
database and picks "Full-Stack Web Application". -/
theorem archetype_table_and_fullstack_scenario :
    (∀ (hf hb hm : Bool) (ml : String),
      determine_project_type hf hb hm ml = archetypeSpec hm hf hb ml) ∧
    scenarioRecords.length = 3 ∧
    scenarioRecords.map FileRecord.language = ["html", "css", "python"] ∧
    (analyze_project_structure scenarioRecords).has_frontend = true ∧
    (analyze_project_structure scenarioRecords).has_backend = true ∧
    (analyze_project_structure scenarioRecords).has_database = true ∧
    (analyze_project_structure scenarioRecords).has_mobile = false ∧
    (analyze_project_structure scenarioRecords).project_type
      = "Full-Stack Web Application" := by
  refine ⟨?_, by decide, by decide, by decide, by decide, by decide, by decide,
    by decide⟩
  intro hf hb hm ml
  cases hf <;> cases hb <;> cases hm <;> rfl

/-- Inversion for `keepEntry`: a kept path is the entry's own parts, the
entry is a readable file within the 5 MB ceiling, no segment of it is
denylisted, and it passes the extension or extensionless-name rule. -/
theorem keepEntry_some {e : ScanEntry} {p : List String}
    (h : keepEntry e = some p) :
    e.parts = p ∧ e.isDir = false ∧ e.statOk = true ∧
    e.size ≤ 5 * 1024 * 1024 ∧
    e.parts.any (fun seg => skip_dirs.contains seg) = false ∧
    (supported_extensions.contains (pyLower (pySuffix ((p.getLast?).getD ""))) = true ∨
      (pySuffix ((p.getLast?).getD "") = "" ∧
        extensionlessNames.contains (pyLower ((p.getLast?).getD "")) = true)) := by
  simp only [keepEntry] at h
  by_cases h1 : e.isDir = true
  · rw [if_pos h1] at h
    cases h
  rw [if_neg h1] at h
  by_cases h2 : e.parts.any (fun seg => skip_dirs.contains seg) = true
  · rw [if_pos h2] at h
    cases h
  rw [if_neg h2] at h
  by_cases h3 : e.statOk = false
  · rw [if_pos h3] at h
    cases h
  rw [if_neg h3] at h
  by_cases h4 : 5 * 1024 * 1024 < e.size
  · rw [if_pos h4] at h
    cases h
  rw [if_neg h4] at h
  have hdir : e.isDir = false := by
    revert h1; cases e.isDir <;> simp
  have hstat : e.statOk = true := by
    revert h3; cases e.statOk <;> simp
  have hany : e.parts.any (fun seg => skip_dirs.contains seg) = false := by
    revert h2; cases e.parts.any (fun seg => skip_dirs.contains seg) <;> simp
  by_cases h5 : supported_extensions.contains
      (pyLower (pySuffix ((e.parts.getLast?).getD ""))) = true
  · rw [if_pos h5] at h
    have hparts := Option.some.inj h
    refine ⟨hparts, hdir, hstat, Nat.le_of_not_lt h4, hany, Or.inl ?_⟩
    rw [← hparts]
    exact h5
  rw [if_neg h5] at h
  by_cases h6 : (pySuffix ((e.parts.getLast?).getD "") = "" &&
      extensionlessNames.contains (pyLower ((e.parts.getLast?).getD ""))) = true
  · rw [if_pos h6] at h
    have hparts := Option.some.inj h
    simp only [Bool.and_eq_true, decide_eq_true_eq] at h6
    refine ⟨hparts, hdir, hstat, Nat.le_of_not_lt h4, hany, Or.inr ?_⟩
    rw [← hparts]
    exact ⟨h6.1, h6.2⟩
  rw [if_neg h6] at h
  cases h

/-- C2: every path `scan_files` returns comes from a readable
non-directory entry of at most 5 MB, has no denylisted segment at any
depth, and has a supported lowercased extension or no extension and a
conventional lowercased name; the returned sequence is sorted in the
lexicographic order on segment lists. -/
theorem scan_files_filters_and_sorts (entries : List ScanEntry) :
    (∀ p, p ∈ scan_files entries →
      (∃ e, e ∈ entries ∧ e.parts = p ∧ e.isDir = false ∧ e.statOk = true ∧
        e.size ≤ 5 * 1024 * 1024) ∧
      (∀ seg, seg ∈ p → skip_dirs.contains seg = false) ∧
      (supported_extensions.contains (pyLower (pySuffix ((p.getLast?).getD ""))) = true ∨
        (pySuffix ((p.getLast?).getD "") = "" ∧
          extensionlessNames.contains (pyLower ((p.getLast?).getD "")) = true))) ∧
    (scan_files entries).Sorted (fun a b => a ≤ b) := by
  constructor
  · intro p hp
    have hp2 : p ∈ entries.foldl (fun acc e => acc ++ (keepEntry e).toList) [] := by
      simpa [scan_files] using hp
    rw [foldl_append_toList] at hp2
    simp only [List.nil_append, List.mem_filterMap] at hp2
    obtain ⟨e, he, hk⟩ := hp2
    obtain ⟨hparts, hdir, hstat, hsize, hany, hext⟩ := keepEntry_some hk
    refine ⟨⟨e, he, hparts, hdir, hstat, hsize⟩, ?_, hext⟩
    intro seg hseg
    cases hb : skip_dirs.contains seg with
    | false => rfl
    | true =>
      exfalso
      have hmem : seg ∈ e.parts := by
        rw [hparts]
        exact hseg
      have htrue : e.parts.any (fun s => skip_dirs.contains s) = true :=
        List.any_eq_true.mpr ⟨seg, hmem, hb⟩
      rw [htrue] at hany
      cases hany
  · haveI : IsTotal (List String) (fun a b => a ≤ b) := ⟨fun a b => le_total a b⟩
    haveI : IsTrans (List String) (fun a b => a ≤ b) :=
      ⟨fun a b c hab hbc => le_trans hab hbc⟩
    rw [scan_files]
    exact List.sorted_insertionSort _ _

end GitDocGen
